import Mathlib

/-!
Verification development for the catalyst exchange live-trading core.

This file shallowly embeds the code of `src/catalyst/exchange/` —
`algorithm_exchange.py` (class `ExchangeTradingAlgorithm`),
`exchange.py` (class `Exchange`) and `exchange_errors.py` — and proves
properties of the embedded definitions.

Conventions of the embedding:
* Python exceptions are modelled with `Except PyError`; a Python function
  that catches its exceptions and falls through returns `Except.ok none`
  (Python's implicit `return None`).
* The remote connector is modelled by parameters: `errs` is the number of
  consecutive `ExchangeRequestError`s the connector raises before an
  attempt succeeds, and the success value is passed in explicitly.
* Python dicts are association lists in insertion order; dict iteration
  order is list order.
* Timestamps are `Nat`; prices and commissions are `Rat` (they are only
  carried, never computed with).
-/

namespace Catalyst

/-- Python exception classes relevant to the embedded code: the connector
error taxonomy of `exchange_errors.py` (`ExchangeRequestError`,
`ExchangeRequestErrorTooManyAttempts`), the lookup errors of
`catalyst.errors` (`SymbolNotFound`, `MultipleSymbolsFound`,
`OrderInBeforeTradingStart` — the premature-order error) and the built-in
Python `KeyError`/`TypeError`. -/
inductive PyError
  | exchangeRequestError
  | exchangeRequestErrorTooManyAttempts
  | keyError
  | typeError
  | orderInBeforeTradingStart
  | symbolNotFound
  | multipleSymbolsFound
  deriving DecidableEq, Repr

/-- Order status values of `catalyst.finance.order.ORDER_STATUS` (the module
is outside `src/`; the value set is modelled from the spec's data model:
status is one of OPEN, FILLED, CANCELLED, REJECTED). -/
inductive ORDER_STATUS
  | OPEN
  | FILLED
  | CANCELLED
  | REJECTED
  deriving DecidableEq, Repr

/-- Modelled from the spec: `catalyst.assets._assets.Asset` is outside
`src/`; the spec's data model gives an Asset its symbol, its
exchange-assigned id (`sid`), its exchange and its listing/start date. -/
structure Asset where
  sid : Nat
  symbol : String
  exchange : String
  start_date : Nat
  deriving DecidableEq, Repr

/-- Modelled from the spec: `catalyst.finance.order.Order` is outside
`src/`; the spec's data model gives an Order its connector-assigned id,
asset, signed amount, status, creation timestamp, executed price and
commission (the latter two meaningful on FILLED). -/
structure Order where
  id : String
  asset : Asset
  amount : Int
  status : ORDER_STATUS
  dt : Nat
  executed_price : Rat
  commission : Rat
  deriving DecidableEq, Repr

/-- Modelled from the spec: `catalyst.finance.transaction.Transaction` is
outside `src/`; its fields are exactly the keyword arguments
`Exchange.check_open_orders` constructs it with (`exchange.py`, lines
99-106): asset, amount, dt, price, order_id, commission. -/
structure Transaction where
  asset : Asset
  amount : Int
  dt : Nat
  price : Rat
  order_id : String
  commission : Rat
  deriving DecidableEq, Repr

/-- Modelled from the spec: the concrete exchange Portfolio class is
outside `src/`; per the spec's data model it owns the open-orders mapping
(order id to Order) and the position set (asset to net quantity). -/
structure Portfolio where
  open_orders : List (String × Order)
  positions : List (Asset × Int)
  deriving DecidableEq, Repr

/-- Modelled from the spec: adding a signed quantity to the net position of
an asset in the position set (the FILLED position effect). -/
def positionAdd (ps : List (Asset × Int)) (a : Asset) (amt : Int) :
    List (Asset × Int) :=
  match ps with
  | [] => [(a, amt)]
  | (b, q) :: rest =>
    if b = a then (b, q + amt) :: rest else (b, q) :: positionAdd rest a amt

/-- Net position of an asset in a position set (0 when absent). -/
def positionOf (ps : List (Asset × Int)) (a : Asset) : Int :=
  match ps with
  | [] => 0
  | (b, q) :: rest => if b = a then q else positionOf rest a

/-- Modelled from the spec: `portfolio.execute_order(order)` (called by
`Exchange.check_open_orders` on a FILLED order, `exchange.py` line 110) is
outside `src/`; per the spec it removes the order from the open-orders
mapping and applies the position update for the fill. -/
def Portfolio.execute_order (p : Portfolio) (o : Order) : Portfolio :=
  { open_orders := p.open_orders.filter (fun kv => !(kv.1 == o.id)),
    positions := positionAdd p.positions o.asset o.amount }

/-- Modelled from the spec: `portfolio.remove_order(order)` (called by
`Exchange.check_open_orders` on a CANCELLED order, `exchange.py` line 112)
is outside `src/`; per the spec it removes the order from the open-orders
mapping with no position change. -/
def Portfolio.remove_order (p : Portfolio) (o : Order) : Portfolio :=
  { p with open_orders := p.open_orders.filter (fun kv => !(kv.1 == o.id)) }

/-! ## The retrying operation wrappers of `ExchangeTradingAlgorithm`

Each `_foo(..., attempt_index=0)` method in `algorithm_exchange.py` calls
the connector, catches `ExchangeRequestError`, and recurses with
`attempt_index + 1` while `attempt_index < budget`; once the budget is
exhausted the except-branch falls through and the method returns Python's
implicit `None`, modelled as `Except.ok none`.  The connector is modelled
by `errs`, the number of consecutive `ExchangeRequestError`s raised before
an attempt succeeds, and by the value the successful call returns. -/

/-- Embeds `ExchangeTradingAlgorithm._order` (`algorithm_exchange.py`,
lines 205-224): tries `self.exchange.order(...)`, whose successful return
value (the connector-assigned order id) is the parameter `oid`; on
`ExchangeRequestError` retries while `attempt_index < budget`
(`self.retry_order`, default 1); on exhaustion falls through and returns
`None`. -/
def ExchangeTradingAlgorithm._order (errs : Nat) (oid : String)
    (budget : Nat) (attempt_index : Nat) : Except PyError (Option String) :=
  if h : attempt_index < errs then
    if attempt_index < budget then
      ExchangeTradingAlgorithm._order errs oid budget (attempt_index + 1)
    else Except.ok none
  else Except.ok (some oid)
termination_by errs - attempt_index
decreasing_by omega

/-- Embeds `ExchangeTradingAlgorithm._check_open_orders`
(`algorithm_exchange.py`, lines 157-166): tries
`self.exchange.check_open_orders()`, whose successful return value (the
transaction list of the reconciliation pass) is the parameter `result`;
retries while `attempt_index < budget` (`self.retry_check_open_orders`,
default 5); on exhaustion falls through and returns `None`. -/
def ExchangeTradingAlgorithm._check_open_orders (errs : Nat)
    (result : List Transaction) (budget : Nat) (attempt_index : Nat) :
    Except PyError (Option (List Transaction)) :=
  if h : attempt_index < errs then
    if attempt_index < budget then
      ExchangeTradingAlgorithm._check_open_orders errs result budget
        (attempt_index + 1)
    else Except.ok none
  else Except.ok (some result)
termination_by errs - attempt_index
decreasing_by omega

/-- Embeds `ExchangeTradingAlgorithm._get_open_orders`
(`algorithm_exchange.py`, lines 248-257): tries
`self.exchange.get_open_orders(asset)`, whose successful return value is
the parameter `result`; retries while `attempt_index < budget`
(`self.retry_get_open_orders`, default 5); on exhaustion falls through and
returns `None`. -/
def ExchangeTradingAlgorithm._get_open_orders (errs : Nat)
    (result : List Order) (budget : Nat) (attempt_index : Nat) :
    Except PyError (Option (List Order)) :=
  if h : attempt_index < errs then
    if attempt_index < budget then
      ExchangeTradingAlgorithm._get_open_orders errs result budget
        (attempt_index + 1)
    else Except.ok none
  else Except.ok (some result)
termination_by errs - attempt_index
decreasing_by omega

/-- Embeds `ExchangeTradingAlgorithm._update_portfolio`
(`algorithm_exchange.py`, lines 146-155): tries
`self.exchange.update_portfolio()` (return value discarded); retries while
`attempt_index < budget` (`self.retry_update_portfolio`, default 5); in
every case the method returns Python's `None`, here `Except.ok ()`. -/
def ExchangeTradingAlgorithm._update_portfolio (errs : Nat)
    (budget : Nat) (attempt_index : Nat) : Except PyError Unit :=
  if h : attempt_index < errs then
    if attempt_index < budget then
      ExchangeTradingAlgorithm._update_portfolio errs budget
        (attempt_index + 1)
    else Except.ok ()
  else Except.ok ()
termination_by errs - attempt_index
decreasing_by omega

/-! Characterizations of the retry recursions. -/

theorem _order_eq (errs : Nat) (oid : String) (budget : Nat) (k : Nat) :
    ExchangeTradingAlgorithm._order errs oid budget k =
      if errs ≤ k ∨ errs ≤ budget then Except.ok (some oid)
      else Except.ok none := by
  generalize hgen : errs - k = n
  induction n generalizing k with
  | zero =>
    rw [ExchangeTradingAlgorithm._order]
    rw [dif_neg (by omega)]
    rw [if_pos (by omega)]
  | succ n ih =>
    rw [ExchangeTradingAlgorithm._order]
    rw [dif_pos (by omega)]
    by_cases hb : k < budget
    · rw [if_pos hb, ih (k + 1) (by omega)]
      by_cases h1 : errs ≤ k + 1 ∨ errs ≤ budget
      · rw [if_pos h1, if_pos (by omega)]
      · rw [if_neg h1, if_neg (by omega)]
    · rw [if_neg hb, if_neg (by omega)]

theorem _check_open_orders_eq (errs : Nat) (result : List Transaction)
    (budget : Nat) (k : Nat) :
    ExchangeTradingAlgorithm._check_open_orders errs result budget k =
      if errs ≤ k ∨ errs ≤ budget then Except.ok (some result)
      else Except.ok none := by
  generalize hgen : errs - k = n
  induction n generalizing k with
  | zero =>
    rw [ExchangeTradingAlgorithm._check_open_orders]
    rw [dif_neg (by omega)]
    rw [if_pos (by omega)]
  | succ n ih =>
    rw [ExchangeTradingAlgorithm._check_open_orders]
    rw [dif_pos (by omega)]
    by_cases hb : k < budget
    · rw [if_pos hb, ih (k + 1) (by omega)]
      by_cases h1 : errs ≤ k + 1 ∨ errs ≤ budget
      · rw [if_pos h1, if_pos (by omega)]
      · rw [if_neg h1, if_neg (by omega)]
    · rw [if_neg hb, if_neg (by omega)]

theorem _get_open_orders_eq (errs : Nat) (result : List Order)
    (budget : Nat) (k : Nat) :
    ExchangeTradingAlgorithm._get_open_orders errs result budget k =
      if errs ≤ k ∨ errs ≤ budget then Except.ok (some result)
      else Except.ok none := by
  generalize hgen : errs - k = n
  induction n generalizing k with
  | zero =>
    rw [ExchangeTradingAlgorithm._get_open_orders]
    rw [dif_neg (by omega)]
    rw [if_pos (by omega)]
  | succ n ih =>
    rw [ExchangeTradingAlgorithm._get_open_orders]
    rw [dif_pos (by omega)]
    by_cases hb : k < budget
    · rw [if_pos hb, ih (k + 1) (by omega)]
      by_cases h1 : errs ≤ k + 1 ∨ errs ≤ budget
      · rw [if_pos h1, if_pos (by omega)]
      · rw [if_neg h1, if_neg (by omega)]
    · rw [if_neg hb, if_neg (by omega)]

theorem _update_portfolio_eq (errs : Nat) (budget : Nat) (k : Nat) :
    ExchangeTradingAlgorithm._update_portfolio errs budget k =
      Except.ok () := by
  generalize hgen : errs - k = n
  induction n generalizing k with
  | zero =>
    rw [ExchangeTradingAlgorithm._update_portfolio]
    rw [dif_neg (by omega)]
  | succ n ih =>
    rw [ExchangeTradingAlgorithm._update_portfolio]
    rw [dif_pos (by omega)]
    by_cases hb : k < budget
    · rw [if_pos hb, ih (k + 1) (by omega)]
    · rw [if_neg hb]

/-! ## `Exchange.check_open_orders` (`exchange.py`, lines 90-121)

The pass iterates over a snapshot of the open-orders keys
(`list(self.portfolio.open_orders)`), fetches each order's remote state
with `self.get_order(order_id)` (modelled as the oracle `g`), and applies
the transition: FILLED builds a `Transaction` and calls
`portfolio.execute_order`; CANCELLED calls `portfolio.remove_order`; any
other status only logs.  `pd.Timestamp.utcnow()` is the parameter `now`. -/

/-- The Transaction that `Exchange.check_open_orders` constructs from a
FILLED order (`exchange.py`, lines 99-106). -/
def mkTransaction (o : Order) (now : Nat) : Transaction :=
  { asset := o.asset, amount := o.amount, dt := now,
    price := o.executed_price, order_id := o.id, commission := o.commission }

/-- One iteration of the loop body of `Exchange.check_open_orders` on the
state (portfolio, transactions accumulated so far). -/
def checkStep (g : String → Order) (now : Nat)
    (st : Portfolio × List Transaction) (order_id : String) :
    Portfolio × List Transaction :=
  let order := g order_id
  if order.status = ORDER_STATUS.FILLED then
    (st.1.execute_order order, st.2 ++ [mkTransaction order now])
  else if order.status = ORDER_STATUS.CANCELLED then
    (st.1.remove_order order, st.2)
  else
    st

/-- Embeds `Exchange.check_open_orders` (`exchange.py`, lines 90-121):
folds the loop body over the snapshot of open-order ids, starting from the
current portfolio and an empty transaction list; returns the mutated
portfolio together with the returned transaction list. -/
def Exchange.check_open_orders (g : String → Order) (now : Nat)
    (p : Portfolio) : Portfolio × List Transaction :=
  (p.open_orders.map Prod.fst).foldl (checkStep g now) (p, [])

/-! Characterization lemmas for the reconciliation fold. -/

theorem checkStep_open_orders_sub (g : String → Order) (now : Nat)
    (st : Portfolio × List Transaction) (i : String)
    (kv : String × Order) (h : kv ∈ (checkStep g now st i).1.open_orders) :
    kv ∈ st.1.open_orders := by
  unfold checkStep at h
  simp only at h
  split at h
  · simp only [Portfolio.execute_order, List.mem_filter] at h
    exact h.1
  · split at h
    · simp only [Portfolio.remove_order, List.mem_filter] at h
      exact h.1
    · exact h

theorem foldl_open_orders_sub (g : String → Order) (now : Nat)
    (keys : List String) :
    ∀ st kv, kv ∈ (keys.foldl (checkStep g now) st).1.open_orders →
      kv ∈ st.1.open_orders := by
  induction keys with
  | nil => intro st kv h; exact h
  | cons k ks ih =>
    intro st kv h
    exact checkStep_open_orders_sub g now st k kv (ih _ kv h)

theorem checkStep_not_mem (g : String → Order) (now : Nat)
    (st : Portfolio × List Transaction) (i : String)
    (hid : (g i).id = i)
    (hterm : (g i).status = ORDER_STATUS.FILLED ∨
             (g i).status = ORDER_STATUS.CANCELLED) :
    i ∉ (checkStep g now st i).1.open_orders.map Prod.fst := by
  intro hmem
  rw [List.mem_map] at hmem
  obtain ⟨kv, hkv, hfst⟩ := hmem
  unfold checkStep at hkv
  simp only at hkv
  rcases hterm with hF | hC
  · rw [if_pos hF] at hkv
    simp only [Portfolio.execute_order, List.mem_filter] at hkv
    rw [hid] at hkv
    have := hkv.2
    simp only [Bool.not_eq_true', beq_eq_false_iff_ne] at this
    exact this hfst
  · by_cases hF : (g i).status = ORDER_STATUS.FILLED
    · rw [hC] at hF; cases hF
    · rw [if_neg hF, if_pos hC] at hkv
      simp only [Portfolio.remove_order, List.mem_filter] at hkv
      rw [hid] at hkv
      have := hkv.2
      simp only [Bool.not_eq_true', beq_eq_false_iff_ne] at this
      exact this hfst

theorem checkStep_absent (g : String → Order) (now : Nat)
    (st : Portfolio × List Transaction) (j i : String)
    (h : i ∉ st.1.open_orders.map Prod.fst) :
    i ∉ (checkStep g now st j).1.open_orders.map Prod.fst := by
  intro hmem
  rw [List.mem_map] at hmem
  obtain ⟨kv, hkv, hfst⟩ := hmem
  exact h (List.mem_map.mpr ⟨kv, checkStep_open_orders_sub g now st j kv hkv, hfst⟩)

theorem foldl_absent (g : String → Order) (now : Nat) (keys : List String) :
    ∀ st i, i ∉ st.1.open_orders.map Prod.fst →
      i ∉ ((keys.foldl (checkStep g now) st).1.open_orders.map Prod.fst) := by
  induction keys with
  | nil => intro st i h; exact h
  | cons k ks ih =>
    intro st i h
    exact ih _ i (checkStep_absent g now st k i h)

theorem foldl_removes (g : String → Order) (now : Nat) (keys : List String) :
    ∀ st i, i ∈ keys → (g i).id = i →
      ((g i).status = ORDER_STATUS.FILLED ∨
       (g i).status = ORDER_STATUS.CANCELLED) →
      i ∉ ((keys.foldl (checkStep g now) st).1.open_orders.map Prod.fst) := by
  induction keys with
  | nil => intro st i h; cases h
  | cons k ks ih =>
    intro st i hmem hid hterm
    by_cases hk : k = i
    · subst hk
      exact foldl_absent g now ks _ k (checkStep_not_mem g now st k hid hterm)
    · have : i ∈ ks := by
        cases List.mem_cons.mp hmem with
        | inl h => exact absurd h.symm hk
        | inr h => exact h
      exact ih _ i this hid hterm

/-- The transactions a pass emits for a given key list: one per key whose
remote status is FILLED, in iteration order. -/
def filledTxs (g : String → Order) (now : Nat) (keys : List String) :
    List Transaction :=
  (keys.filter (fun i => (g i).status = ORDER_STATUS.FILLED)).map
    (fun i => mkTransaction (g i) now)

theorem foldl_txs (g : String → Order) (now : Nat) (keys : List String) :
    ∀ st, (keys.foldl (checkStep g now) st).2 =
      st.2 ++ filledTxs g now keys := by
  induction keys with
  | nil => intro st; simp [filledTxs]
  | cons k ks ih =>
    intro st
    rw [List.foldl_cons, ih]
    by_cases hF : (g k).status = ORDER_STATUS.FILLED
    · have hstep : (checkStep g now st k).2 = st.2 ++ [mkTransaction (g k) now] := by
        unfold checkStep
        simp only
        rw [if_pos hF]
      rw [hstep]
      unfold filledTxs
      rw [List.filter_cons_of_pos (by simp [hF]), List.map_cons,
        List.append_assoc]
      rfl
    · have hstep : (checkStep g now st k).2 = st.2 := by
        unfold checkStep
        simp only
        rw [if_neg hF]
        by_cases hC : (g k).status = ORDER_STATUS.CANCELLED
        · rw [if_pos hC]
        · rw [if_neg hC]
      rw [hstep]
      unfold filledTxs
      rw [List.filter_cons_of_neg (by simp [hF])]

/-- The position set a pass produces: the FILLED position effect applied
for each key whose remote status is FILLED, in iteration order, and no
change for any other key. -/
def positionsAfter (g : String → Order) (keys : List String)
    (ps : List (Asset × Int)) : List (Asset × Int) :=
  keys.foldl
    (fun acc i =>
      if (g i).status = ORDER_STATUS.FILLED then
        positionAdd acc (g i).asset (g i).amount
      else acc) ps

theorem foldl_positions (g : String → Order) (now : Nat)
    (keys : List String) :
    ∀ st, (keys.foldl (checkStep g now) st).1.positions =
      positionsAfter g keys st.1.positions := by
  induction keys with
  | nil => intro st; rfl
  | cons k ks ih =>
    intro st
    rw [List.foldl_cons, ih]
    unfold positionsAfter
    rw [List.foldl_cons]
    congr 1
    unfold checkStep
    simp only
    by_cases hF : (g k).status = ORDER_STATUS.FILLED
    · rw [if_pos hF, if_pos hF]
      rfl
    · rw [if_neg hF, if_neg hF]
      by_cases hC : (g k).status = ORDER_STATUS.CANCELLED
      · rw [if_pos hC]
        rfl
      · rw [if_neg hC]

/-! Generic list helpers used by the counting arguments below. -/

theorem filterMapComm {α β : Type} (f : α → β) (p : β → Bool) :
    ∀ l : List α, (l.map f).filter p = (l.filter (fun a => p (f a))).map f := by
  intro l
  induction l with
  | nil => rfl
  | cons a l ih =>
    simp only [List.map_cons, List.filter_cons]
    by_cases h : p (f a) = true
    · rw [if_pos h, if_pos h, List.map_cons, ih]
    · rw [if_neg h, if_neg h, ih]

theorem filterCongrMem {α : Type} (p q : α → Bool) :
    ∀ l : List α, (∀ a ∈ l, p a = q a) → l.filter p = l.filter q := by
  intro l
  induction l with
  | nil => intro _; rfl
  | cons a l ih =>
    intro h
    have ha := h a (List.mem_cons_self a l)
    have hl := ih (fun b hb => h b (List.mem_cons_of_mem a hb))
    by_cases hp : p a = true
    · rw [List.filter_cons_of_pos hp, List.filter_cons_of_pos (ha ▸ hp), hl]
    · rw [List.filter_cons_of_neg (by simp [Bool.not_eq_true] at hp ⊢; exact hp),
        List.filter_cons_of_neg
          (by simp [Bool.not_eq_true] at hp ⊢; exact ha ▸ hp), hl]

theorem filterFalseNil {α : Type} (q : α → Bool) :
    ∀ l : List α, (∀ a ∈ l, q a = false) → l.filter q = [] := by
  intro l
  induction l with
  | nil => intro _; rfl
  | cons a l ih =>
    intro h
    rw [List.filter_cons_of_neg
      (by rw [h a (List.mem_cons_self a l)]; simp)]
    exact ih (fun b hb => h b (List.mem_cons_of_mem a hb))

theorem filterBeqNil (i : String) :
    ∀ l : List String, i ∉ l → l.filter (fun j => j == i) = [] := by
  intro l hl
  apply filterFalseNil
  intro a ha
  rw [beq_eq_false_iff_ne]
  intro h
  exact hl (h ▸ ha)

theorem filterEqSingle (q : String → Bool) (i : String) :
    ∀ keys : List String, keys.Nodup → i ∈ keys → q i = true →
      (∀ j ∈ keys, j ≠ i → q j = false) → keys.filter q = [i] := by
  intro keys
  induction keys with
  | nil => intro _ h; cases h
  | cons k ks ih =>
    intro hnd hmem hqi hother
    have hnd' := List.nodup_cons.mp hnd
    by_cases hk : k = i
    · subst hk
      rw [List.filter_cons_of_pos hqi]
      rw [filterFalseNil q ks
        (fun j hj => hother j (List.mem_cons_of_mem k hj)
          (fun he => hnd'.1 (he ▸ hj)))]
    · have hks : i ∈ ks := by
        cases List.mem_cons.mp hmem with
        | inl h => exact absurd h.symm hk
        | inr h => exact h
      rw [List.filter_cons_of_neg
        (by rw [hother k (List.mem_cons_self k ks) hk]; simp)]
      exact ih hnd'.2 hks hqi
        (fun j hj => hother j (List.mem_cons_of_mem k hj))

theorem filterBeqSingle (q : String → Bool) (i : String) :
    ∀ keys : List String, keys.Nodup → i ∈ keys → q i = true →
      (keys.filter q).filter (fun j => j == i) = [i] := by
  intro keys
  induction keys with
  | nil => intro _ h; cases h
  | cons k ks ih =>
    intro hnd hmem hqi
    have hnd' := List.nodup_cons.mp hnd
    by_cases hk : k = i
    · subst hk
      rw [List.filter_cons_of_pos hqi,
        List.filter_cons_of_pos (by simp)]
      have : (ks.filter q).filter (fun j => j == k) = [] := by
        apply filterBeqNil
        intro hmem2
        exact hnd'.1 (List.mem_of_mem_filter hmem2)
      rw [this]
    · have hks : i ∈ ks := by
        cases List.mem_cons.mp hmem with
        | inl h => exact absurd h.symm hk
        | inr h => exact h
      by_cases hqk : q k = true
      · rw [List.filter_cons_of_pos hqk,
          List.filter_cons_of_neg (by simp [beq_eq_false_iff_ne, hk])]
        exact ih hnd'.2 hks hqi
      · rw [List.filter_cons_of_neg (by simp [Bool.not_eq_true] at hqk ⊢; exact hqk)]
        exact ih hnd'.2 hks hqi

theorem positionsAfterNoFill (g : String → Order) :
    ∀ (keys : List String) (ps : List (Asset × Int)),
      (∀ j ∈ keys, (g j).status ≠ ORDER_STATUS.FILLED) →
      positionsAfter g keys ps = ps := by
  intro keys
  induction keys with
  | nil => intro ps _; rfl
  | cons k ks ih =>
    intro ps h
    unfold positionsAfter
    rw [List.foldl_cons,
      if_neg (h k (List.mem_cons_self k ks))]
    exact ih ps (fun j hj => h j (List.mem_cons_of_mem k hj))

theorem positionsAfterSingle (g : String → Order) (i : String) :
    ∀ (keys : List String) (ps : List (Asset × Int)),
      keys.Nodup → i ∈ keys → (g i).status = ORDER_STATUS.FILLED →
      (∀ j ∈ keys, j ≠ i → (g j).status ≠ ORDER_STATUS.FILLED) →
      positionsAfter g keys ps = positionAdd ps (g i).asset (g i).amount := by
  intro keys
  induction keys with
  | nil => intro ps _ h; cases h
  | cons k ks ih =>
    intro ps hnd hmem hF hother
    have hnd' := List.nodup_cons.mp hnd
    unfold positionsAfter
    rw [List.foldl_cons]
    by_cases hk : k = i
    · subst hk
      rw [if_pos hF]
      exact positionsAfterNoFill g ks _
        (fun j hj => hother j (List.mem_cons_of_mem k hj)
          (fun he => hnd'.1 (he ▸ hj)))
    · have hks : i ∈ ks := by
        cases List.mem_cons.mp hmem with
        | inl h => exact absurd h.symm hk
        | inr h => exact h
      rw [if_neg (hother k (List.mem_cons_self k ks) hk)]
      exact ih ps hnd'.2 hks hF
        (fun j hj => hother j (List.mem_cons_of_mem k hj))

theorem positionOfPositionAdd (a : Asset) (amt : Int) :
    ∀ ps : List (Asset × Int),
      positionOf (positionAdd ps a amt) a = positionOf ps a + amt := by
  intro ps
  induction ps with
  | nil =>
    simp [positionOf, positionAdd]
  | cons kv rest ih =>
    obtain ⟨b, q⟩ := kv
    by_cases hb : b = a
    · subst hb
      simp [positionOf, positionAdd]
    · unfold positionAdd
      rw [if_neg hb]
      unfold positionOf
      rw [if_neg hb, if_neg hb]
      exact ih

/-! ## `ExchangeTradingAlgorithm.order` (`algorithm_exchange.py`, lines 226-242) -/

/-- Execution styles of `catalyst.finance.execution` (outside `src/`;
modelled from the docstring of `Exchange.order` in `exchange.py`:
market, `LimitOrder(N)`, `StopOrder(M)`, `StopLimitOrder(N, M)`). -/
inductive Style
  | market
  | limit (p : Rat)
  | stop (p : Rat)
  | stopLimit (l s : Rat)
  deriving DecidableEq, Repr

/-- Python dict lookup `self.portfolio.open_orders[order_id]` where
`order_id` may be `None` (the fall-through value of `_order`): raises
`KeyError` when the key is absent (and `None` is never a key of the
open-orders mapping, whose keys are connector-assigned id strings). -/
def lookupOrder (open_orders : List (String × Order)) :
    Option String → Except PyError Order
  | none => Except.error PyError.keyError
  | some oid =>
    match open_orders.find? (fun kv => kv.1 == oid) with
    | some kv => Except.ok kv.2
    | none => Except.error PyError.keyError

/-- Result of a successful `order()` call: the Order returned to the
caller and the list of orders registered with the performance collaborator
via `self.perf_tracker.process_order`. -/
structure OrderOutcome where
  returned : Order
  registered : List Order
  deriving DecidableEq, Repr

/-- Embeds `ExchangeTradingAlgorithm.order` (`algorithm_exchange.py`,
lines 226-242).  The `@disallowed_in_before_trading_start
(OrderInBeforeTradingStart())` decorator and `self._calculate_order` live
outside `src/` and are modelled from the spec: during the pre-session
setup phase the call raises the premature-order error
`OrderInBeforeTradingStart`, and `calc` computes the final amount/style
from the raw request.  `place` is the connector's id assignment for the
submitted order (the success value of `self.exchange.order`), and `errs`,
`budget` parametrise `_order`'s retry loop as above. -/
def ExchangeTradingAlgorithm.order
    (in_before_trading_start : Bool)
    (calc_order : Asset → Int → Option Rat → Option Rat → Option Style →
      Int × Style)
    (place : Asset → Int → Style → String)
    (errs budget : Nat)
    (open_orders : List (String × Order))
    (asset : Asset) (amount : Int)
    (limit_price stop_price : Option Rat) (style : Option Style) :
    Except PyError OrderOutcome :=
  if in_before_trading_start then
    Except.error PyError.orderInBeforeTradingStart
  else
    let c := calc_order asset amount limit_price stop_price style
    match ExchangeTradingAlgorithm._order errs (place asset c.1 c.2)
        budget 0 with
    | Except.error e => Except.error e
    | Except.ok order_id =>
      match lookupOrder open_orders order_id with
      | Except.error e => Except.error e
      | Except.ok o => Except.ok { returned := o, registered := [o] }

/-! ## `ExchangeTradingAlgorithm.handle_data` (`algorithm_exchange.py`,
lines 168-203), restricted to the part before the strategy callback -/

/-- Embeds the head of `ExchangeTradingAlgorithm.handle_data`: the
early return when `self.is_running` is false, the retrying portfolio
update, the retrying open-order check, and the
`for transaction in transactions` loop over its result.  Iterating
Python's `None` raises `TypeError`.  Returns the transactions handed to
`self.perf_tracker.process_transaction` (`none` when the tick was skipped
by the running flag); the strategy callback, account controls and the
perf-snapshot block that follow are modelled separately for the shutdown
claims. -/
def ExchangeTradingAlgorithm.handle_data (is_running : Bool)
    (errsPortfolio errsCheck : Nat) (checkResult : List Transaction)
    (retry_update_portfolio retry_check_open_orders : Nat) :
    Except PyError (Option (List Transaction)) :=
  if !is_running then Except.ok none
  else
    match ExchangeTradingAlgorithm._update_portfolio errsPortfolio
        retry_update_portfolio 0 with
    | Except.error e => Except.error e
    | Except.ok _ =>
      match ExchangeTradingAlgorithm._check_open_orders errsCheck
          checkResult retry_check_open_orders 0 with
      | Except.error e => Except.error e
      | Except.ok transactions =>
        match transactions with
        | none => Except.error PyError.typeError
        | some txs => Except.ok (some txs)

/-! ## `ExchangeTradingAlgorithm.cancel_order` (`algorithm_exchange.py`,
lines 269-274) -/

/-- The argument of `cancel_order`: an order id string or an Order object
(the `isinstance(order_param, zp.Order)` dispatch). -/
inductive OrderParam
  | oid (s : String)
  | ord (o : Order)
  deriving DecidableEq, Repr

/-- Embeds `ExchangeTradingAlgorithm.cancel_order`: extracts the id from
an Order argument, passes an id argument through, and delegates to
`self.exchange.cancel_order(order_id)`.  The first component is the id
delegated to the connector; the second is the method's `None` return. -/
def ExchangeTradingAlgorithm.cancel_order (order_param : OrderParam) :
    String × Unit :=
  match order_param with
  | OrderParam.oid s => (s, ())
  | OrderParam.ord o => (o.id, ())

/-! ## `Exchange.get_asset` and `Exchange.load_assets` (`exchange.py`,
lines 45-60 and 75-88) -/

/-- Python's `str.lower()` as used on the ASCII currency-pair symbols of
`exchange.py`: per-character lowering. -/
def lower (s : String) : String := String.mk (s.data.map Char.toLower)

/-- Embeds `Exchange.get_asset`: iterates over the asset registry in
insertion order, keeping the first entry whose symbol matches
case-insensitively (`self.assets[key].symbol.lower() == symbol.lower()`);
raises `SymbolNotFound` when no entry matches.  Note the imported
`MultipleSymbolsFound` error is never raised by the source. -/
def Exchange.get_asset (assets : List (String × Asset)) (symbol : String) :
    Except PyError Asset :=
  match assets.find? (fun kv => lower kv.2.symbol == lower symbol) with
  | some kv => Except.ok kv.2
  | none => Except.error PyError.symbolNotFound

/-- A parsed entry of the `assets_json` object consumed by
`Exchange.load_assets` (the fields forwarded to the `Asset` constructor). -/
structure AssetEntry where
  symbol : String
  start_date : Nat
  deriving DecidableEq, Repr

/-- The synthetic asset id of `Exchange.load_assets` (`exchange.py`, line
83): `abs(hash(symbol)) % (10 ** 4)`.  Python's randomized built-in string
hash is the parameter `hsh`. -/
def sidOf (hsh : String → Int) (symbol : String) : Nat :=
  (hsh symbol).natAbs % (10 ^ 4)

/-- Embeds `Exchange.load_assets` (`exchange.py`, lines 75-88): builds an
`Asset` for every entry of the parsed JSON object (whose keys are unique
by JSON-object semantics) and stores it under its exchange symbol, with
`sid = abs(hash(symbol)) % 10 ** 4`.  No uniqueness check of any kind is
performed on symbols or sids. -/
def Exchange.load_assets (hsh : String → Int) (name : String)
    (entries : List (String × AssetEntry)) : List (String × Asset) :=
  entries.map (fun kv =>
    (kv.1,
      { sid := sidOf hsh kv.2.symbol, symbol := kv.2.symbol,
        exchange := name, start_date := kv.2.start_date }))

/-! ## The shutdown handler (`algorithm_exchange.py`, lines 60-68) and the
running-flag gate of `handle_data` (lines 168-170)

The loop is modelled as a trace semantics: a tick consists of a start
event (the point where `handle_data` checks `self.is_running`) and a
finish event (the append of the tick's snapshot to `self.minute_perfs`,
line 200); an interrupt event delivers SIGINT, running `signal_handler`,
at an arbitrary point of the trace — in particular between the two events
of a tick, i.e. mid-tick, before that tick's snapshot append.

The handler itself has two behaviours.  With at least one recorded
snapshot, `pd.DataFrame(self.minute_perfs).set_index('period_close')`
succeeds, `self.analyze(stats)` receives the report, and `sys.exit(0)`
runs: the `exited` flag is set and no further Python of this process runs.
With zero recorded snapshots, `pd.DataFrame([])` has no `period_close`
column and `set_index` raises `KeyError`: `analyze` and `sys.exit(0)` are
never reached, the `KeyError` propagates out of the handler into the
interrupted frame (the `handler_error` flag), and the run either aborts
with that traceback or idles with `is_running` cleared — in every
interleaving no later snapshot append, report handoff or clean exit
happens (any append of the in-flight tick would have had to run before the
delivery point, contradicting the perfs being empty at the handler), so
the model freezes the state. -/

/-- A recorded performance snapshot (one element of `self.minute_perfs`):
its `period_close` index key and its metrics payload. -/
structure MinutePerf where
  period_close : Nat
  pnl : Int
  deriving DecidableEq, Repr

/-- State of the execution loop process.  `exited` records that
`sys.exit(0)` ran; `handler_error` records that `signal_handler` raised
`KeyError` while assembling the report of an empty snapshot list. -/
structure LoopState where
  is_running : Bool
  in_flight : Bool
  minute_perfs : List MinutePerf
  final_report : Option (List (Nat × MinutePerf))
  exited : Bool
  handler_error : Bool
  deriving DecidableEq, Repr

/-- The initial loop state (`__init__`: `is_running = True`,
`minute_perfs = []`). -/
def initState : LoopState :=
  { is_running := true, in_flight := false, minute_perfs := [],
    final_report := none, exited := false, handler_error := false }

/-- Embeds `ExchangeTradingAlgorithm.signal_handler` (`algorithm_exchange.py`,
lines 60-68): sets `self.is_running = False` first; then
`pd.DataFrame(self.minute_perfs).set_index('period_close', ...)` — with no
recorded snapshot this raises `KeyError` (the empty frame has no
`period_close` column), so neither `self.analyze` nor `sys.exit(0)` runs;
with at least one snapshot it assembles the report indexed by
`period_close`, hands it to `self.analyze`, and only then calls
`sys.exit(0)`. -/
def signal_handler (s : LoopState) : LoopState :=
  if s.minute_perfs = [] then
    { s with is_running := false, handler_error := true }
  else
    { s with
        is_running := false,
        final_report :=
          some (s.minute_perfs.map (fun p => (p.period_close, p))),
        exited := true }

/-- Events of the loop trace: the start of a tick's processing (where
`handle_data` checks `self.is_running`), the completion of a tick (the
append of its snapshot to `self.minute_perfs`), and the SIGINT delivery. -/
inductive LoopEvent
  | tickStart
  | tickFinish (p : MinutePerf)
  | interrupt
  deriving DecidableEq, Repr

/-- One trace event.  After `sys.exit(0)` (`exited`), and after a
`KeyError` has escaped the handler (`handler_error`, see the section
comment), nothing further happens.  Otherwise a tick starts only while
`is_running` holds (`handle_data` lines 168-170); a tick in flight records
its snapshot when it finishes; an interrupt runs `signal_handler` wherever
it is delivered — including mid-tick. -/
def loopStep (s : LoopState) : LoopEvent → LoopState
  | LoopEvent.tickStart =>
    if s.exited || s.handler_error then s
    else if s.is_running then { s with in_flight := true } else s
  | LoopEvent.tickFinish p =>
    if s.exited || s.handler_error then s
    else if s.in_flight then
      { s with in_flight := false, minute_perfs := s.minute_perfs ++ [p] }
    else s
  | LoopEvent.interrupt =>
    if s.exited || s.handler_error then s else signal_handler s

/-- Runs the loop over a trace of events. -/
def runLoop (s : LoopState) (events : List LoopEvent) : LoopState :=
  events.foldl loopStep s

theorem runLoop_halted_stable (events : List LoopEvent) :
    ∀ s : LoopState, (s.exited || s.handler_error) = true →
      runLoop s events = s := by
  induction events with
  | nil => intro s _; rfl
  | cons e es ih =>
    intro s h
    unfold runLoop
    rw [List.foldl_cons]
    have hstep : loopStep s e = s := by
      cases e <;> simp [loopStep, h]
    rw [hstep]
    exact ih s h

theorem runLoop_no_interrupt (events : List LoopEvent)
    (hev : LoopEvent.interrupt ∉ events) :
    ∀ s : LoopState,
      (runLoop s events).exited = s.exited ∧
      (runLoop s events).handler_error = s.handler_error ∧
      (runLoop s events).final_report = s.final_report ∧
      (runLoop s events).is_running = s.is_running := by
  induction events with
  | nil => intro s; exact ⟨rfl, rfl, rfl, rfl⟩
  | cons e es ih =>
    intro s
    have hev' : LoopEvent.interrupt ∉ es :=
      fun hm => hev (List.mem_cons_of_mem e hm)
    have hne : e ≠ LoopEvent.interrupt :=
      fun he => hev (he ▸ List.mem_cons_self e es)
    have hstep : (loopStep s e).exited = s.exited ∧
        (loopStep s e).handler_error = s.handler_error ∧
        (loopStep s e).final_report = s.final_report ∧
        (loopStep s e).is_running = s.is_running := by
      cases e with
      | tickStart =>
        unfold loopStep
        split_ifs <;> exact ⟨rfl, rfl, rfl, rfl⟩
      | tickFinish p =>
        unfold loopStep
        split_ifs <;> exact ⟨rfl, rfl, rfl, rfl⟩
      | interrupt => exact absurd rfl hne
    unfold runLoop
    rw [List.foldl_cons]
    obtain ⟨h1, h2, h3, h4⟩ := ih hev' (loopStep s e)
    exact ⟨h1.trans hstep.1, h2.trans hstep.2.1, h3.trans hstep.2.2.1,
      h4.trans hstep.2.2.2⟩

theorem runLoop_append (s : LoopState) (evs1 evs2 : List LoopEvent) :
    runLoop s (evs1 ++ evs2) = runLoop (runLoop s evs1) evs2 := by
  unfold runLoop
  rw [List.foldl_append]

/-! ## Claim theorems -/

/-- C1 (counterexample to the claim as stated): with a retry budget of 1
and two consecutive transient request errors (N = 2 > B = 1), `_order`
does not surface `ExchangeRequestErrorTooManyAttempts` — the except-branch
falls through and the wrapper returns Python `None`. -/
theorem c1_no_too_many_attempts_error :
    ExchangeTradingAlgorithm._order 2 "O1" 1 0 = Except.ok none ∧
    ExchangeTradingAlgorithm._order 2 "O1" 1 0 ≠
      Except.error PyError.exchangeRequestErrorTooManyAttempts := by
  have h := _order_eq 2 "O1" 1 0
  rw [if_neg (by omega)] at h
  refine ⟨h, ?_⟩
  intro hc
  rw [h] at hc
  exact Except.noConfusion hc

/-- C1 (amended): for the order-placement write path with retry budget B,
N consecutive transient request errors followed by success make the
placement succeed with the connector's order id iff N ≤ B; when N > B the
wrapper raises nothing and returns `None` — no fabricated order id — and
the enclosing `order()` call then fails with a `KeyError` when it looks
the missing id up in the open-orders mapping, which is how the exhaustion
failure surfaces to the caller. -/
theorem c1_retry_order (errs budget : Nat) (oid : String) :
    (ExchangeTradingAlgorithm._order errs oid budget 0 =
        Except.ok (some oid) ↔ errs ≤ budget) ∧
    (budget < errs →
      ExchangeTradingAlgorithm._order errs oid budget 0 = Except.ok none ∧
      ∀ (calc_order : Asset → Int → Option Rat → Option Rat →
            Option Style → Int × Style)
        (place : Asset → Int → Style → String)
        (open_orders : List (String × Order)) (asset : Asset)
        (amount : Int) (lp sp : Option Rat) (style : Option Style),
        ExchangeTradingAlgorithm.order false calc_order place errs budget
            open_orders asset amount lp sp style =
          Except.error PyError.keyError) := by
  constructor
  · constructor
    · intro he
      by_contra hnb
      have h := _order_eq errs oid budget 0
      rw [if_neg (by omega)] at h
      rw [h] at he
      have := Except.ok.inj he
      exact Option.noConfusion this
    · intro hb
      have h := _order_eq errs oid budget 0
      rw [if_pos (Or.inr hb)] at h
      exact h
  · intro hlt
    have h := _order_eq errs oid budget 0
    rw [if_neg (by omega)] at h
    refine ⟨h, ?_⟩
    intro calc_order place open_orders asset amount lp sp style
    have h2 := _order_eq errs
      (place asset (calc_order asset amount lp sp style).1
        (calc_order asset amount lp sp style).2) budget 0
    rw [if_neg (by omega)] at h2
    simp only [ExchangeTradingAlgorithm.order, Bool.false_eq_true,
      if_false, h2]
    rfl

/-- C1 (witness): budget 1; one error then success places the order, two
errors exhaust the budget and yield Python `None`. -/
theorem c1_retry_order_witness :
    (ExchangeTradingAlgorithm._order 1 "O1" 1 0 =
      Except.ok (some "O1")) ∧
    (ExchangeTradingAlgorithm._order 2 "O1" 1 0 = Except.ok none) :=
  ⟨(c1_retry_order 1 1 "O1").1.mpr (by decide),
   ((c1_retry_order 2 1 "O1").2 (by decide)).1⟩

/-- C2 (code bug, evaluated at the failing input): with the default budget
5 and six consecutive transient request errors, the open-order check
wrapper returns Python `None` — not the empty list the spec's
degrade-gracefully policy requires — and `handle_data` then crashes with a
`TypeError` when it iterates `None` (`for transaction in transactions`),
so the tick processing does not continue.  The open-order listing wrapper
likewise degrades to `None` instead of an empty list; only the
portfolio-update wrapper (whose result is discarded) is harmless. -/
theorem c2_exhaustion_crashes_loop :
    ExchangeTradingAlgorithm._check_open_orders 6 [] 5 0 =
      Except.ok none ∧
    ExchangeTradingAlgorithm.handle_data true 0 6 [] 5 5 =
      Except.error PyError.typeError ∧
    ExchangeTradingAlgorithm._get_open_orders 6 [] 5 0 = Except.ok none ∧
    ExchangeTradingAlgorithm._update_portfolio 6 5 0 = Except.ok () := by
  have hc := _check_open_orders_eq 6 [] 5 0
  rw [if_neg (by omega)] at hc
  have hg := _get_open_orders_eq 6 [] 5 0
  rw [if_neg (by omega)] at hg
  have hu := _update_portfolio_eq 6 5 0
  refine ⟨hc, ?_, hg, hu⟩
  simp only [ExchangeTradingAlgorithm.handle_data, Bool.not_true,
    Bool.false_eq_true, if_false, _update_portfolio_eq, hc]

/-- C5: the `order()` contract — outside the pre-session phase, `order()`
computes the final amount/style with `_calculate_order`, submits through
the retrying `_order` wrapper, looks the connector-assigned id up in the
Portfolio's open-orders mapping, registers the resulting Order with the
performance collaborator and returns it; during the pre-session setup
phase it fails with the premature-order error `OrderInBeforeTradingStart`,
which is distinct from every connector error. -/
theorem c5_order_contract
    (calc_order : Asset → Int → Option Rat → Option Rat → Option Style →
      Int × Style)
    (place : Asset → Int → Style → String) (errs budget : Nat)
    (open_orders : List (String × Order)) (asset : Asset) (amount : Int)
    (lp sp : Option Rat) (style : Option Style) (o : Order)
    (hretry : errs ≤ budget)
    (hfound : lookupOrder open_orders
        (some (place asset (calc_order asset amount lp sp style).1
          (calc_order asset amount lp sp style).2)) = Except.ok o) :
    ExchangeTradingAlgorithm.order false calc_order place errs budget
        open_orders asset amount lp sp style =
      Except.ok { returned := o, registered := [o] } ∧
    ExchangeTradingAlgorithm.order true calc_order place errs budget
        open_orders asset amount lp sp style =
      Except.error PyError.orderInBeforeTradingStart ∧
    PyError.orderInBeforeTradingStart ≠ PyError.exchangeRequestError ∧
    PyError.orderInBeforeTradingStart ≠
      PyError.exchangeRequestErrorTooManyAttempts := by
  have h := _order_eq errs
    (place asset (calc_order asset amount lp sp style).1
      (calc_order asset amount lp sp style).2) budget 0
  rw [if_pos (Or.inr hretry)] at h
  refine ⟨?_, rfl, by decide, by decide⟩
  simp only [ExchangeTradingAlgorithm.order, Bool.false_eq_true,
    if_false, h, hfound]

/-- C10: `cancel_order` accepts either an order id or an Order object,
extracts the id from an Order argument, delegates cancellation of exactly
that id to the exchange connector, and returns nothing. -/
theorem c10_cancel_order (s : String) (o : Order) :
    ExchangeTradingAlgorithm.cancel_order (OrderParam.oid s) = (s, ()) ∧
    ExchangeTradingAlgorithm.cancel_order (OrderParam.ord o) =
      (o.id, ()) :=
  ⟨rfl, rfl⟩

/-- Sample reference data for the witnesses below. -/
def sampleAsset : Asset :=
  { sid := 1, symbol := "eth_btc", exchange := "bitfinex", start_date := 0 }

/-- A locally tracked open order with id "O1". -/
def sampleOpen : Order :=
  { id := "O1", asset := sampleAsset, amount := 2,
    status := ORDER_STATUS.OPEN, dt := 3, executed_price := 0,
    commission := 0 }

/-- The remote view of order "O1" once it has been filled: executed price
100.5, amount 2, commission 0.1 (the spec's reconciliation scenario). -/
def sampleFilled : Order :=
  { id := "O1", asset := sampleAsset, amount := 2,
    status := ORDER_STATUS.FILLED, dt := 3, executed_price := 100.5,
    commission := 0.1 }

/-- C5 (witness): a concrete successful placement with budget 1, no
connector errors, and the placed id "O1" present in the open-orders
mapping, plus the premature-order failure on the same inputs. -/
theorem c5_order_contract_witness :
    ExchangeTradingAlgorithm.order false
        (fun _ a _ _ _ => (a, Style.market)) (fun _ _ _ => "O1") 0 1
        [("O1", sampleOpen)] sampleAsset 2 none none none =
      Except.ok { returned := sampleOpen, registered := [sampleOpen] } ∧
    ExchangeTradingAlgorithm.order true
        (fun _ a _ _ _ => (a, Style.market)) (fun _ _ _ => "O1") 0 1
        [("O1", sampleOpen)] sampleAsset 2 none none none =
      Except.error PyError.orderInBeforeTradingStart := by
  have h := c5_order_contract (fun _ a _ _ _ => (a, Style.market))
    (fun _ _ _ => "O1") 0 1 [("O1", sampleOpen)] sampleAsset 2
    none none none sampleOpen (by decide) (by rfl)
  exact ⟨h.1, h.2.1⟩

/-- C3: invariant of the open-orders mapping under a reconciliation pass —
assuming the invariant held before the pass (every tracked order has
status OPEN) and the connector returns each queried order under its own
id, then after `check_open_orders` completes every order remaining in the
mapping still has status OPEN; every id whose remote status was observed
FILLED or CANCELLED has been removed in that same pass; and the position
set is exactly the one obtained by applying the fill effect for each
FILLED observation and no change for any other (in particular CANCELLED)
observation. -/
theorem c3_open_orders_invariant (g : String → Order) (now : Nat)
    (p : Portfolio)
    (hopen : ∀ kv ∈ p.open_orders, kv.2.status = ORDER_STATUS.OPEN)
    (hid : ∀ i ∈ p.open_orders.map Prod.fst, (g i).id = i) :
    (∀ kv ∈ (Exchange.check_open_orders g now p).1.open_orders,
        kv.2.status = ORDER_STATUS.OPEN) ∧
    (∀ i ∈ p.open_orders.map Prod.fst,
        ((g i).status = ORDER_STATUS.FILLED ∨
         (g i).status = ORDER_STATUS.CANCELLED) →
        i ∉ (Exchange.check_open_orders g now p).1.open_orders.map
          Prod.fst) ∧
    ((Exchange.check_open_orders g now p).1.positions =
        positionsAfter g (p.open_orders.map Prod.fst) p.positions) := by
  refine ⟨?_, ?_, ?_⟩
  · intro kv hkv
    exact hopen kv
      (foldl_open_orders_sub g now (p.open_orders.map Prod.fst)
        (p, []) kv hkv)
  · intro i hi hterm
    exact foldl_removes g now (p.open_orders.map Prod.fst) (p, []) i hi
      (hid i hi) hterm
  · exact foldl_positions g now (p.open_orders.map Prod.fst) (p, [])

/-- C3 (witness): a one-order portfolio whose order is observed FILLED. -/
theorem c3_open_orders_invariant_witness :
    (∀ kv ∈ (Exchange.check_open_orders (fun _ => sampleFilled) 7
        { open_orders := [("O1", sampleOpen)], positions := [] }
      ).1.open_orders, kv.2.status = ORDER_STATUS.OPEN) ∧
    (∀ i ∈ [("O1", sampleOpen)].map Prod.fst,
        ((fun (_ : String) => sampleFilled) i).status =
            ORDER_STATUS.FILLED ∨
          ((fun (_ : String) => sampleFilled) i).status =
            ORDER_STATUS.CANCELLED →
        i ∉ (Exchange.check_open_orders (fun _ => sampleFilled) 7
            { open_orders := [("O1", sampleOpen)], positions := [] }
          ).1.open_orders.map Prod.fst) ∧
    ((Exchange.check_open_orders (fun _ => sampleFilled) 7
        { open_orders := [("O1", sampleOpen)], positions := [] }
      ).1.positions =
      positionsAfter (fun _ => sampleFilled) ["O1"] []) :=
  c3_open_orders_invariant (fun _ => sampleFilled) 7
    { open_orders := [("O1", sampleOpen)], positions := [] }
    (by decide) (by decide)

theorem check_open_orders_txs (g : String → Order) (now : Nat)
    (p : Portfolio) :
    (Exchange.check_open_orders g now p).2 =
      filledTxs g now (p.open_orders.map Prod.fst) := by
  unfold Exchange.check_open_orders
  rw [foldl_txs]
  rfl

theorem check_open_orders_positions (g : String → Order) (now : Nat)
    (p : Portfolio) :
    (Exchange.check_open_orders g now p).1.positions =
      positionsAfter g (p.open_orders.map Prod.fst) p.positions := by
  unfold Exchange.check_open_orders
  exact foldl_positions g now _ (p, [])

theorem check_open_orders_sub (g : String → Order) (now : Nat)
    (p : Portfolio) (kv : String × Order)
    (h : kv ∈ (Exchange.check_open_orders g now p).1.open_orders) :
    kv ∈ p.open_orders := by
  unfold Exchange.check_open_orders at h
  exact foldl_open_orders_sub g now _ (p, []) kv h

theorem filledTxs_filter_id (g : String → Order) (now : Nat) (i : String)
    (keys : List String) (hid : ∀ j ∈ keys, (g j).id = j) :
    (filledTxs g now keys).filter (fun t => t.order_id == i) =
      ((keys.filter
          (fun j => (g j).status = ORDER_STATUS.FILLED)).filter
        (fun j => j == i)).map (fun j => mkTransaction (g j) now) := by
  unfold filledTxs
  rw [filterMapComm]
  congr 1
  apply filterCongrMem
  intro j hj
  have hjid : (g j).id = j := hid j (List.mem_of_mem_filter hj)
  simp [mkTransaction, hjid]

/-- C4: exactly one Transaction per transition into FILLED — in the pass
that first observes an open order as FILLED, exactly one transaction
carrying that order id is emitted and the id is removed from the
open-orders mapping; a second reconciliation pass over the resulting
portfolio emits no transaction for that id (reconciliation is idempotent
for already-reconciled orders). -/
theorem c4_transaction_exactly_once (g : String → Order) (now now2 : Nat)
    (p : Portfolio) (i : String)
    (hnd : (p.open_orders.map Prod.fst).Nodup)
    (hid : ∀ j ∈ p.open_orders.map Prod.fst, (g j).id = j)
    (hmem : i ∈ p.open_orders.map Prod.fst)
    (hF : (g i).status = ORDER_STATUS.FILLED) :
    (((Exchange.check_open_orders g now p).2.filter
        (fun t => t.order_id == i)).length = 1) ∧
    (i ∉ (Exchange.check_open_orders g now p).1.open_orders.map
      Prod.fst) ∧
    ((Exchange.check_open_orders g now2
        (Exchange.check_open_orders g now p).1).2.filter
      (fun t => t.order_id == i) = []) := by
  have h2 : i ∉ (Exchange.check_open_orders g now p).1.open_orders.map
      Prod.fst := by
    unfold Exchange.check_open_orders
    exact foldl_removes g now _ (p, []) i hmem (hid i hmem) (Or.inl hF)
  have hid2 : ∀ j ∈ (Exchange.check_open_orders g now
      p).1.open_orders.map Prod.fst, (g j).id = j := by
    intro j hj
    rw [List.mem_map] at hj
    obtain ⟨kv, hkv, hfst⟩ := hj
    subst hfst
    exact hid kv.1
      (List.mem_map.mpr ⟨kv, check_open_orders_sub g now p kv hkv, rfl⟩)
  refine ⟨?_, h2, ?_⟩
  · rw [check_open_orders_txs, filledTxs_filter_id g now i _ hid,
      filterBeqSingle _ i _ hnd hmem (by simp [hF])]
    rfl
  · rw [check_open_orders_txs, filledTxs_filter_id g now2 i _ hid2,
      filterBeqNil i _ (fun hm => h2 (List.mem_of_mem_filter hm))]
    rfl

/-- C4 (witness): a single open order "O1" observed FILLED: one matching
transaction in the first pass, none in a second pass. -/
theorem c4_transaction_exactly_once_witness :
    (((Exchange.check_open_orders (fun _ => sampleFilled) 7
        { open_orders := [("O1", sampleOpen)], positions := [] }).2.filter
        (fun t => t.order_id == "O1")).length = 1) ∧
    ("O1" ∉ (Exchange.check_open_orders (fun _ => sampleFilled) 7
        { open_orders := [("O1", sampleOpen)],
          positions := [] }).1.open_orders.map Prod.fst) ∧
    ((Exchange.check_open_orders (fun _ => sampleFilled) 8
        (Exchange.check_open_orders (fun _ => sampleFilled) 7
          { open_orders := [("O1", sampleOpen)],
            positions := [] }).1).2.filter
      (fun t => t.order_id == "O1") = []) :=
  c4_transaction_exactly_once (fun _ => sampleFilled) 7 8
    { open_orders := [("O1", sampleOpen)], positions := [] } "O1"
    (by decide) (by decide) (by decide) (by decide)

/-- C7: the FILLED reconciliation scenario — when the only order a pass
observes as FILLED is the open order with id i, executed price
`(g i).executed_price`, amount `(g i).amount` and commission
`(g i).commission`, the pass emits exactly the one Transaction carrying
that id, price, amount and commission; the position for the order's asset
changes by the order's amount; and the id no longer appears in the
open-orders mapping. -/
theorem c7_filled_scenario (g : String → Order) (now : Nat)
    (p : Portfolio) (i : String)
    (hnd : (p.open_orders.map Prod.fst).Nodup)
    (hid : ∀ j ∈ p.open_orders.map Prod.fst, (g j).id = j)
    (hmem : i ∈ p.open_orders.map Prod.fst)
    (hF : (g i).status = ORDER_STATUS.FILLED)
    (honly : ∀ j ∈ p.open_orders.map Prod.fst, j ≠ i →
      (g j).status ≠ ORDER_STATUS.FILLED) :
    ((Exchange.check_open_orders g now p).2 =
      [{ asset := (g i).asset, amount := (g i).amount, dt := now,
         price := (g i).executed_price, order_id := i,
         commission := (g i).commission }]) ∧
    (positionOf (Exchange.check_open_orders g now p).1.positions
        (g i).asset =
      positionOf p.positions (g i).asset + (g i).amount) ∧
    (i ∉ (Exchange.check_open_orders g now p).1.open_orders.map
      Prod.fst) := by
  have hsingle : (p.open_orders.map Prod.fst).filter
      (fun j => (g j).status = ORDER_STATUS.FILLED) = [i] :=
    filterEqSingle _ i _ hnd hmem (by simp [hF])
      (fun j hj hne => decide_eq_false (honly j hj hne))
  refine ⟨?_, ?_, ?_⟩
  · rw [check_open_orders_txs]
    unfold filledTxs
    rw [hsingle]
    simp [mkTransaction, hid i hmem]
  · rw [check_open_orders_positions,
      positionsAfterSingle g i _ _ hnd hmem hF honly,
      positionOfPositionAdd]
  · unfold Exchange.check_open_orders
    exact foldl_removes g now _ (p, []) i hmem (hid i hmem) (Or.inl hF)

/-- C7 (witness): the spec's concrete scenario — order "O1" observed
FILLED with executed price 100.5, amount 2, commission 0.1: one
Transaction with exactly those fields, position delta +2, and "O1" gone
from the open orders. -/
theorem c7_filled_scenario_witness :
    ((Exchange.check_open_orders (fun _ => sampleFilled) 7
        { open_orders := [("O1", sampleOpen)], positions := [] }).2 =
      [{ asset := sampleAsset, amount := 2, dt := 7, price := 100.5,
         order_id := "O1", commission := 0.1 }]) ∧
    (positionOf (Exchange.check_open_orders (fun _ => sampleFilled) 7
        { open_orders := [("O1", sampleOpen)],
          positions := [] }).1.positions sampleAsset =
      positionOf [] sampleAsset + 2) ∧
    ("O1" ∉ (Exchange.check_open_orders (fun _ => sampleFilled) 7
        { open_orders := [("O1", sampleOpen)],
          positions := [] }).1.open_orders.map Prod.fst) :=
  c7_filled_scenario (fun _ => sampleFilled) 7
    { open_orders := [("O1", sampleOpen)], positions := [] } "O1"
    (by decide) (by decide) (by decide) (by decide) (by decide)

/-- C6 (counterexample to the claim as stated): one tick completes
recording its snapshot, a second tick starts, and the interrupt is
delivered mid-tick.  The claim says the tick in flight completes; instead
`signal_handler` exits the process (`sys.exit(0)`) and the in-flight
tick's snapshot (period close 100) is never recorded — the final state
holds only the first tick's snapshot, and the report indexes exactly
that one. -/
theorem c6_midtick_aborts_inflight :
    (runLoop initState
      [LoopEvent.tickStart,
       LoopEvent.tickFinish { period_close := 9, pnl := 5 },
       LoopEvent.tickStart, LoopEvent.interrupt,
       LoopEvent.tickFinish { period_close := 100, pnl := 1 }]
      ).minute_perfs = [{ period_close := 9, pnl := 5 }] ∧
    (runLoop initState
      [LoopEvent.tickStart,
       LoopEvent.tickFinish { period_close := 9, pnl := 5 },
       LoopEvent.tickStart, LoopEvent.interrupt,
       LoopEvent.tickFinish { period_close := 100, pnl := 1 }]
      ).exited = true ∧
    (runLoop initState
      [LoopEvent.tickStart,
       LoopEvent.tickFinish { period_close := 9, pnl := 5 },
       LoopEvent.tickStart, LoopEvent.interrupt,
       LoopEvent.tickFinish { period_close := 100, pnl := 1 }]
      ).final_report = some [(9, { period_close := 9, pnl := 5 })] :=
  ⟨rfl, rfl, rfl⟩

/-- C6 (amended): upon receipt of the external interrupt the running flag
is set to false, and a tick in flight at the interrupt is aborted rather
than completing.  If at least one snapshot was recorded strictly before
the interrupt, the final report handed to the analysis collaborator
contains exactly those snapshots, indexed by tick close time, and only
then does the process terminate via `sys.exit(0)`; no further tick is
processed.  If no snapshot was recorded, the handler itself fails with a
`KeyError` while assembling the empty report (`pd.DataFrame([])` has no
`period_close` column): no report is ever handed over, `sys.exit(0)` never
runs, and no snapshot is recorded afterwards either. -/
theorem c6_shutdown (evs1 evs2 : List LoopEvent)
    (h1 : LoopEvent.interrupt ∉ evs1) :
    ((runLoop initState evs1).minute_perfs ≠ [] →
      (runLoop initState
          (evs1 ++ LoopEvent.interrupt :: evs2)).is_running = false ∧
      (runLoop initState (evs1 ++ LoopEvent.interrupt :: evs2)).exited =
        true ∧
      (runLoop initState
          (evs1 ++ LoopEvent.interrupt :: evs2)).minute_perfs =
        (runLoop initState evs1).minute_perfs ∧
      (runLoop initState
          (evs1 ++ LoopEvent.interrupt :: evs2)).final_report =
        some ((runLoop initState evs1).minute_perfs.map
          (fun p => (p.period_close, p)))) ∧
    ((runLoop initState evs1).minute_perfs = [] →
      (runLoop initState
          (evs1 ++ LoopEvent.interrupt :: evs2)).is_running = false ∧
      (runLoop initState (evs1 ++ LoopEvent.interrupt :: evs2)).exited =
        false ∧
      (runLoop initState
          (evs1 ++ LoopEvent.interrupt :: evs2)).handler_error = true ∧
      (runLoop initState
          (evs1 ++ LoopEvent.interrupt :: evs2)).final_report = none ∧
      (runLoop initState
          (evs1 ++ LoopEvent.interrupt :: evs2)).minute_perfs = []) := by
  obtain ⟨hex, herr, hrep, hrun⟩ := runLoop_no_interrupt evs1 h1 initState
  have hsplit : runLoop initState (evs1 ++ LoopEvent.interrupt :: evs2) =
      runLoop (loopStep (runLoop initState evs1) LoopEvent.interrupt)
        evs2 := by
    rw [runLoop_append]
    rfl
  have hstep : loopStep (runLoop initState evs1) LoopEvent.interrupt =
      signal_handler (runLoop initState evs1) := by
    simp only [loopStep]
    rw [if_neg (by rw [hex, herr]; decide)]
  constructor
  · intro hne
    have hsh : signal_handler (runLoop initState evs1) =
        { runLoop initState evs1 with
            is_running := false,
            final_report := some ((runLoop initState evs1).minute_perfs.map
              (fun p => (p.period_close, p))),
            exited := true } := by
      unfold signal_handler
      rw [if_neg hne]
    rw [hsplit, hstep, hsh, runLoop_halted_stable evs2 _ (by rfl)]
    exact ⟨rfl, rfl, rfl, rfl⟩
  · intro hemp
    have hsh : signal_handler (runLoop initState evs1) =
        { runLoop initState evs1 with
            is_running := false, handler_error := true } := by
      unfold signal_handler
      rw [if_pos hemp]
    rw [hsplit, hstep, hsh, runLoop_halted_stable evs2 _ (by simp)]
    exact ⟨rfl, hex, rfl, hrep, hemp⟩

/-- C6 (witness): first, one completed tick then a mid-tick interrupt —
the report indexes exactly the one snapshot recorded before the interrupt
and the process exits; second, an interrupt with no recorded snapshot —
the handler's KeyError means no report and no exit, and later events
record nothing. -/
theorem c6_shutdown_witness :
    (LoopEvent.interrupt ∉
        [LoopEvent.tickStart,
         LoopEvent.tickFinish { period_close := 9, pnl := 5 },
         LoopEvent.tickStart] ∧
      (runLoop initState
        [LoopEvent.tickStart,
         LoopEvent.tickFinish { period_close := 9, pnl := 5 },
         LoopEvent.tickStart]).minute_perfs ≠ [] ∧
      ((runLoop initState
          ([LoopEvent.tickStart,
            LoopEvent.tickFinish { period_close := 9, pnl := 5 },
            LoopEvent.tickStart] ++
           LoopEvent.interrupt ::
             [LoopEvent.tickFinish { period_close := 10, pnl := 6 }])
          ).is_running = false ∧
        (runLoop initState
          ([LoopEvent.tickStart,
            LoopEvent.tickFinish { period_close := 9, pnl := 5 },
            LoopEvent.tickStart] ++
           LoopEvent.interrupt ::
             [LoopEvent.tickFinish { period_close := 10, pnl := 6 }])
          ).exited = true ∧
        (runLoop initState
          ([LoopEvent.tickStart,
            LoopEvent.tickFinish { period_close := 9, pnl := 5 },
            LoopEvent.tickStart] ++
           LoopEvent.interrupt ::
             [LoopEvent.tickFinish { period_close := 10, pnl := 6 }])
          ).minute_perfs =
          (runLoop initState
            [LoopEvent.tickStart,
             LoopEvent.tickFinish { period_close := 9, pnl := 5 },
             LoopEvent.tickStart]).minute_perfs ∧
        (runLoop initState
          ([LoopEvent.tickStart,
            LoopEvent.tickFinish { period_close := 9, pnl := 5 },
            LoopEvent.tickStart] ++
           LoopEvent.interrupt ::
             [LoopEvent.tickFinish { period_close := 10, pnl := 6 }])
          ).final_report =
          some ((runLoop initState
            [LoopEvent.tickStart,
             LoopEvent.tickFinish { period_close := 9, pnl := 5 },
             LoopEvent.tickStart]).minute_perfs.map
              (fun p => (p.period_close, p))))) ∧
    ((runLoop initState
        ([] ++ LoopEvent.interrupt ::
          [LoopEvent.tickStart,
           LoopEvent.tickFinish { period_close := 3, pnl := 4 }])
        ).is_running = false ∧
      (runLoop initState
        ([] ++ LoopEvent.interrupt ::
          [LoopEvent.tickStart,
           LoopEvent.tickFinish { period_close := 3, pnl := 4 }])
        ).exited = false ∧
      (runLoop initState
        ([] ++ LoopEvent.interrupt ::
          [LoopEvent.tickStart,
           LoopEvent.tickFinish { period_close := 3, pnl := 4 }])
        ).handler_error = true ∧
      (runLoop initState
        ([] ++ LoopEvent.interrupt ::
          [LoopEvent.tickStart,
           LoopEvent.tickFinish { period_close := 3, pnl := 4 }])
        ).final_report = none ∧
      (runLoop initState
        ([] ++ LoopEvent.interrupt ::
          [LoopEvent.tickStart,
           LoopEvent.tickFinish { period_close := 3, pnl := 4 }])
        ).minute_perfs = []) :=
  ⟨⟨by decide, by decide,
    (c6_shutdown
      [LoopEvent.tickStart,
       LoopEvent.tickFinish { period_close := 9, pnl := 5 },
       LoopEvent.tickStart]
      [LoopEvent.tickFinish { period_close := 10, pnl := 6 }]
      (by decide)).1 (by decide)⟩,
   (c6_shutdown []
      [LoopEvent.tickStart,
       LoopEvent.tickFinish { period_close := 3, pnl := 4 }]
      (by decide)).2 (by decide)⟩

/-- Registry entry whose symbol collides with `collidingB` below. -/
def collidingA : Asset :=
  { sid := 7, symbol := "BTC_USD", exchange := "x", start_date := 0 }

/-- Registry entry whose symbol collides with `collidingA` above. -/
def collidingB : Asset :=
  { sid := 8, symbol := "btc_usd", exchange := "x", start_date := 0 }

/-- C8 (counterexample to the claim as stated): with two registry entries
colliding on the same case-insensitive symbol, `get_asset` does not fail
distinctly — it silently returns the first match in registry iteration
order (`MultipleSymbolsFound` is never raised by the source), and no
uniqueness is enforced at load time. -/
theorem c8_collision_not_distinct :
    Exchange.get_asset [("a", collidingA), ("b", collidingB)] "Btc_Usd" =
      Except.ok collidingA ∧
    collidingA ≠ collidingB ∧
    Exchange.get_asset [("a", collidingA), ("b", collidingB)] "Btc_Usd" ≠
      Except.error PyError.multipleSymbolsFound := by
  refine ⟨by rfl, by decide, ?_⟩
  intro hc
  rw [(by rfl : Exchange.get_asset [("a", collidingA), ("b", collidingB)]
      "Btc_Usd" = Except.ok collidingA)] at hc
  exact Except.noConfusion hc

/-- C8 (amended): `get_asset` matching is case-insensitive and fails with
the distinct `SymbolNotFound` error when no entry matches; but when
several registry entries collide on the same symbol it silently returns
the first match in registry iteration order, and `load_assets` loads every
entry with no symbol-uniqueness check. -/
theorem c8_get_asset (assets : List (String × Asset)) (s t : String) :
    (lower s = lower t →
      Exchange.get_asset assets s = Exchange.get_asset assets t) ∧
    ((∀ kv ∈ assets, lower kv.2.symbol ≠ lower s) →
      Exchange.get_asset assets s =
        Except.error PyError.symbolNotFound) ∧
    (∀ (k : String) (a : Asset) (rest : List (String × Asset)),
      lower a.symbol = lower s →
      Exchange.get_asset ((k, a) :: rest) s = Except.ok a) ∧
    (∀ (hsh : String → Int) (name : String)
        (entries : List (String × AssetEntry)),
      (Exchange.load_assets hsh name entries).map
          (fun kv => kv.2.symbol) =
        entries.map (fun kv => kv.2.symbol)) := by
  refine ⟨?_, ?_, ?_, ?_⟩
  · intro h
    unfold Exchange.get_asset
    simp only [h]
  · intro hnone
    unfold Exchange.get_asset
    have hfind : assets.find?
        (fun kv => lower kv.2.symbol == lower s) = none := by
      rw [List.find?_eq_none]
      intro kv hkv
      simp only [beq_iff_eq]
      exact hnone kv hkv
    rw [hfind]
  · intro k a rest ha
    unfold Exchange.get_asset
    have hpa : (lower a.symbol == lower s) = true := by
      rw [beq_iff_eq]
      exact ha
    rw [List.find?_cons]
    simp only [hpa]
  · intro hsh name entries
    unfold Exchange.load_assets
    rw [List.map_map]
    rfl

/-- C8 (witness): case-insensitive equality of lookups, a concrete
symbol-not-found failure, a concrete first-match return, and a concrete
collision-free load. -/
theorem c8_get_asset_witness :
    (lower "Btc_Usd" = lower "BTC_usd" ∧
      Exchange.get_asset [("a", collidingA)] "Btc_Usd" =
        Exchange.get_asset [("a", collidingA)] "BTC_usd") ∧
    ((∀ kv ∈ [("a", collidingA)],
        lower (kv.2 : Asset).symbol ≠ lower "eth_usd") ∧
      Exchange.get_asset [("a", collidingA)] "eth_usd" =
        Except.error PyError.symbolNotFound) ∧
    (lower collidingB.symbol = lower "BTC_USD" ∧
      Exchange.get_asset [("b", collidingB), ("a", collidingA)]
        "BTC_USD" = Except.ok collidingB) :=
  ⟨⟨by decide, (c8_get_asset [("a", collidingA)] "Btc_Usd" "BTC_usd").1
      (by decide)⟩,
   ⟨by decide, (c8_get_asset [("a", collidingA)] "eth_usd" "x").2.1
      (by decide)⟩,
   ⟨by decide, (c8_get_asset [] "BTC_USD" "x").2.2.1 "b" collidingB
      [("a", collidingA)] (by decide)⟩⟩

theorem sidOf_lt (hsh : String → Int) (s : String) : sidOf hsh s < 10 ^ 4 :=
  Nat.mod_lt _ (by norm_num)

/-- C9: asset-id allocation at registry load — every loaded Asset gets
`sid = abs(hash(symbol)) mod 10^4`, so every sid lies below 10^4; for any
hash function there exist two distinct symbols whose sids coincide (the
scheme cannot guarantee unique ids); and `load_assets` performs no
collision check — it loads every entry unconditionally. -/
theorem c9_sid_allocation (hsh : String → Int) (name : String)
    (entries : List (String × AssetEntry)) :
    (∀ kv ∈ Exchange.load_assets hsh name entries, kv.2.sid < 10 ^ 4) ∧
    (∃ s t : String, s ≠ t ∧ sidOf hsh s = sidOf hsh t) ∧
    ((Exchange.load_assets hsh name entries).length = entries.length) := by
  refine ⟨?_, ?_, ?_⟩
  · intro kv hkv
    unfold Exchange.load_assets at hkv
    rw [List.mem_map] at hkv
    obtain ⟨e, _, hkv⟩ := hkv
    subst hkv
    exact sidOf_lt hsh e.2.symbol
  · obtain ⟨x, y, hxy, hfeq⟩ :=
      Fintype.exists_ne_map_eq_of_card_lt
        (fun i : Fin (10 ^ 4 + 1) =>
          (⟨sidOf hsh (String.mk (List.replicate i.1 'a')),
            sidOf_lt hsh _⟩ : Fin (10 ^ 4)))
        (by rw [Fintype.card_fin, Fintype.card_fin]
            exact Nat.lt_succ_self _)
    refine ⟨String.mk (List.replicate x.1 'a'),
      String.mk (List.replicate y.1 'a'), ?_, ?_⟩
    · intro hst
      apply hxy
      have hdata : List.replicate x.1 'a' = List.replicate y.1 'a' :=
        congrArg String.data hst
      have hlen := congrArg List.length hdata
      rw [List.length_replicate, List.length_replicate] at hlen
      exact Fin.ext hlen
    · exact congrArg Fin.val hfeq
  · unfold Exchange.load_assets
    rw [List.length_map]

/-- C9 (witness): a concrete two-entry load under a concrete hash. -/
theorem c9_sid_allocation_witness :
    (∀ kv ∈ Exchange.load_assets (fun _ => 42) "bitfinex"
        [("eth_btc", { symbol := "eth_btc", start_date := 0 }),
         ("neo_btc", { symbol := "neo_btc", start_date := 1 })],
      kv.2.sid < 10 ^ 4) ∧
    (∃ s t : String, s ≠ t ∧
      sidOf (fun _ => 42) s = sidOf (fun _ => 42) t) ∧
    ((Exchange.load_assets (fun _ => 42) "bitfinex"
        [("eth_btc", { symbol := "eth_btc", start_date := 0 }),
         ("neo_btc", { symbol := "neo_btc", start_date := 1 })]).length =
      [("eth_btc",
          ({ symbol := "eth_btc", start_date := 0 } : AssetEntry)),
        ("neo_btc",
          ({ symbol := "neo_btc", start_date := 1 } : AssetEntry))].length) :=
  c9_sid_allocation (fun _ => 42) "bitfinex"
    [("eth_btc", { symbol := "eth_btc", start_date := 0 }),
     ("neo_btc", { symbol := "neo_btc", start_date := 1 })]

end Catalyst
